import Mathlib

/-!
Verification development for the CausalOps repository.

Part A embeds the code that ships under the repository's source tree:
the zod schemas for log documents (`packages/shared/src/elastic-index.ts`),
the agent environment validation (`packages/shared/src/env.ts`) and the
Elasticsearch index initializer (`packages/shared/src/elastic-client.ts`).

Part B models the diagnosis pipeline of the design documents (evidence
assembler, schema validator, causal-graph synthesizer): that code is not
present in the source tree, so it is modelled from the specification.
-/

/-- A JSON value.  Numbers are modelled as integers: every schema check in
the repository only inspects whether a value *is* a number, never its
magnitude, so the numeric payload's representation is irrelevant here. -/
inductive Json where
  | null : Json
  | bool (b : Bool) : Json
  | num (n : Int) : Json
  | str (s : String) : Json
  | arr (items : List Json) : Json
  | obj (fields : List (String × Json)) : Json

/-- Field lookup in a JSON object's field list (first binding wins, as in
a JS object where zod reads each declared key once). -/
def getField (fields : List (String × Json)) (key : String) : Option Json :=
  match fields.find? (fun kv => kv.1 == key) with
  | some kv => some kv.2
  | none => none

/-- A JSON value is a scalar when it is neither an object nor an array. -/
def isScalarJson : Json → Bool
  | .arr _ => false
  | .obj _ => false
  | _ => true

/-! ## Part A.1 — zod schemas of `elastic-index.ts` -/

/-- `EventActionSchema = z.enum(['config_change','db_pool_low','latency_spike'])`. -/
def eventActions : List String := ["config_change", "db_pool_low", "latency_spike"]

/-- A value admitted by `EventActionSchema`: a string drawn from the enum. -/
def validEventAction : Json → Bool
  | .str a => eventActions.contains a
  | _ => false

/-- A value admitted by the union in `LabelsSchema`:
`z.union([z.string(), z.number(), z.boolean()])`. -/
def isLabelValue : Json → Bool
  | .str _ => true
  | .num _ => true
  | .bool _ => true
  | _ => false

/-- A value admitted by the union in `MetricsSchema`:
`z.union([z.number(), z.string()])` — note: no boolean branch. -/
def isMetricValue : Json → Bool
  | .num _ => true
  | .str _ => true
  | _ => false

/-- `LabelsSchema = z.record(z.string(), z.union([...]))`: an object with
arbitrary keys whose every value passes the union. -/
def validLabels : Json → Bool
  | .obj fields => fields.all (fun kv => isLabelValue kv.2)
  | _ => false

/-- `MetricsSchema = z.record(z.string(), z.union([...]))`. -/
def validMetrics : Json → Bool
  | .obj fields => fields.all (fun kv => isMetricValue kv.2)
  | _ => false

/-- Zero or more ASCII digits followed by a terminal `Z`. -/
def digitsThenZ : List Char → Bool
  | [] => false
  | ['Z'] => true
  | c :: rest => c.isDigit && digitsThenZ rest

/-- The tail of a zod datetime after the seconds: either `Z` directly or a
dot, at least one digit, then `Z`. -/
def datetimeTail : List Char → Bool
  | ['Z'] => true
  | '.' :: c :: rest => c.isDigit && digitsThenZ (c :: rest)
  | _ => false

/-- The shape accepted by `z.string().datetime()` (zod v3 default):
`YYYY-MM-DDTHH:MM:SS(.digits)?Z`, a pure regex-shape check. -/
def isZodDatetime (s : String) : Bool :=
  match s.toList with
  | y1 :: y2 :: y3 :: y4 :: '-' :: m1 :: m2 :: '-' :: d1 :: d2 :: 'T' ::
    h1 :: h2 :: ':' :: n1 :: n2 :: ':' :: s1 :: s2 :: rest =>
      [y1, y2, y3, y4, m1, m2, d1, d2, h1, h2, n1, n2, s1, s2].all Char.isDigit
        && datetimeTail rest
  | _ => false

/-- `ServiceSchema = z.object({ name: z.string().max(256) })`. -/
def validService : Json → Bool
  | .obj fs =>
      match getField fs "name" with
      | some (.str s) => s.length ≤ 256
      | _ => false
  | _ => false

/-- `EventSchema = z.object({ action: EventActionSchema })`. -/
def validEvent : Json → Bool
  | .obj fs =>
      match getField fs "action" with
      | some v => validEventAction v
      | none => false
  | _ => false

/-- An `.optional()` zod field: absent is fine, present must validate. -/
def validOptionalField (fs : List (String × Json)) (key : String)
    (check : Json → Bool) : Bool :=
  match getField fs key with
  | none => true
  | some v => check v

/-- The non-map fields of `LogDocumentSchema`: required `@timestamp`
(datetime string), `service`, `event`, `message` (string, max 1024) and
the optional `trace_id` (string, max 256). -/
def validLogDocumentCore (fs : List (String × Json)) : Bool :=
  (match getField fs "@timestamp" with
   | some (.str s) => isZodDatetime s
   | _ => false)
  && (match getField fs "service" with
      | some v => validService v
      | none => false)
  && (match getField fs "event" with
      | some v => validEvent v
      | none => false)
  && (match getField fs "message" with
      | some (.str s) => s.length ≤ 1024
      | _ => false)
  && validOptionalField fs "trace_id"
      (fun v => match v with | .str s => s.length ≤ 256 | _ => false)

/-- `LogDocumentSchema`: the core fields plus the optional `labels` and
`metrics` maps.  Unknown keys are stripped by zod, so they do not affect
validity. -/
def validLogDocument : Json → Bool
  | .obj fs =>
      validLogDocumentCore fs
      && validOptionalField fs "labels" validLabels
      && validOptionalField fs "metrics" validMetrics
  | _ => false

/-- The `event.action` string of a raw document, when it has one. -/
def docAction (d : Json) : Option String :=
  match d with
  | .obj fs =>
      match getField fs "event" with
      | some (.obj efs) =>
          match getField efs "action" with
          | some (.str a) => some a
          | _ => none
      | _ => none
  | _ => none

/-- The field list of `sampleLogDocument` from `elastic-index.ts`. -/
def sampleFields : List (String × Json) :=
  [("@timestamp", .str "2025-09-18T10:00:00.000Z"),
   ("service", .obj [("name", .str "api")]),
   ("event", .obj [("action", .str "latency_spike")]),
   ("message", .str "Latency spike detected: p95=980ms"),
   ("trace_id", .str "t-1001"),
   ("labels", .obj [("db_pool_avail", .num 3),
                    ("environment", .str "staging")]),
   ("metrics", .obj [("p95_ms", .num 980),
                     ("request_count", .num 1500)])]

/-- `sampleLogDocument` from `elastic-index.ts`, encoded as a raw JSON value. -/
def sampleLogDocument : Json := .obj sampleFields

/-- The metrics entries of a raw document (empty when absent or malformed). -/
def metricsEntries (d : Json) : List (String × Json) :=
  match d with
  | .obj fs =>
      match getField fs "metrics" with
      | some (.obj ms) => ms
      | _ => []
  | _ => []

/-- A document identical to `sampleLogDocument` except that its `metrics`
map carries one boolean-valued entry — a scalar value. -/
def docBoolMetric : Json :=
  .obj [("@timestamp", .str "2025-09-18T10:00:00.000Z"),
        ("service", .obj [("name", .str "api")]),
        ("event", .obj [("action", .str "latency_spike")]),
        ("message", .str "Latency spike detected: p95=980ms"),
        ("trace_id", .str "t-1001"),
        ("labels", .obj [("db_pool_avail", .num 3),
                         ("environment", .str "staging")]),
        ("metrics", .obj [("degraded", .bool true)])]

/-- The field list of a document whose label and metric maps use arbitrary
keys with values drawn from the unions the schemas declare. -/
def arbitraryKeyFields : List (String × Json) :=
  [("@timestamp", .str "2025-09-18T10:00:00Z"),
   ("service", .obj [("name", .str "api")]),
   ("event", .obj [("action", .str "config_change")]),
   ("message", .str "config hash changed"),
   ("labels", .obj [("weird key 42", .bool true),
                    ("region", .str "eu-west-1"),
                    ("attempt", .num 2)]),
   ("metrics", .obj [("p95_ms", .num 980),
                     ("build", .str "abc123")])]

/-- Every value admitted by the `LabelsSchema` union is a scalar. -/
theorem isLabelValue_scalar (v : Json) (h : isLabelValue v = true) :
    isScalarJson v = true := by
  cases v <;> simp_all [isLabelValue, isScalarJson]

/-- Every value admitted by the `MetricsSchema` union is a scalar. -/
theorem isMetricValue_scalar (v : Json) (h : isMetricValue v = true) :
    isScalarJson v = true := by
  cases v <;> simp_all [isMetricValue, isScalarJson]

/-- C6: log-document validation succeeds only if the document's
`event.action` is one of `config_change`, `db_pool_low`, `latency_spike`:
every document accepted by `LogDocumentSchema` carries an action drawn
from the closed set of `EventActionSchema`. -/
theorem c6_event_action_closed_set (d : Json) (h : validLogDocument d = true) :
    ∃ a, docAction d = some a ∧ a ∈ eventActions := by
  cases d with
  | obj fs =>
    simp only [validLogDocument, Bool.and_eq_true] at h
    obtain ⟨⟨hcore, -⟩, -⟩ := h
    simp only [validLogDocumentCore, Bool.and_eq_true] at hcore
    obtain ⟨⟨⟨⟨-, -⟩, h3⟩, -⟩, -⟩ := hcore
    cases hev : getField fs "event" with
    | none => rw [hev] at h3; exact absurd h3 (by simp)
    | some v =>
      rw [hev] at h3
      cases v with
      | obj efs =>
        simp only [validEvent] at h3
        cases hac : getField efs "action" with
        | none => rw [hac] at h3; exact absurd h3 (by simp)
        | some w =>
          rw [hac] at h3
          cases w with
          | str a =>
            refine ⟨a, by simp [docAction, hev, hac], ?_⟩
            simpa [validEventAction, eventActions] using h3
          | null => simp [validEventAction] at h3
          | bool b => simp [validEventAction] at h3
          | num n => simp [validEventAction] at h3
          | arr xs => simp [validEventAction] at h3
          | obj gs => simp [validEventAction] at h3
      | null => simp [validEvent] at h3
      | bool b => simp [validEvent] at h3
      | num n => simp [validEvent] at h3
      | str s => simp [validEvent] at h3
      | arr xs => simp [validEvent] at h3
  | null => simp [validLogDocument] at h
  | bool b => simp [validLogDocument] at h
  | num n => simp [validLogDocument] at h
  | str s => simp [validLogDocument] at h
  | arr xs => simp [validLogDocument] at h

theorem c6_witness :
    validLogDocument sampleLogDocument = true ∧
    ∃ a, docAction sampleLogDocument = some a ∧ a ∈ eventActions :=
  ⟨by decide, c6_event_action_closed_set sampleLogDocument (by decide)⟩

/-- C7 counterexample: `docBoolMetric` differs from the accepted
`sampleLogDocument` only in its `metrics` map, whose single entry carries
the scalar value `true`; the document is nevertheless rejected, so scalar
values under arbitrary keys are not all accepted. -/
theorem c7_counterexample :
    validLogDocument sampleLogDocument = true ∧
    (metricsEntries docBoolMetric).all (fun kv => isScalarJson kv.2) = true ∧
    validLogDocument docBoolMetric = false := by decide

/-- The `labels` field, when present, is an object whose every value lies
in the union `LabelsSchema` declares; an absent field is accepted. -/
def labelsFieldAccepted (fs : List (String × Json)) : Prop :=
  getField fs "labels" = none ∨
  ∃ lfs, getField fs "labels" = some (.obj lfs) ∧
    lfs.all (fun kv => isLabelValue kv.2) = true

/-- The `metrics` field, when present, is an object whose every value
lies in the union `MetricsSchema` declares; an absent field is accepted. -/
def metricsFieldAccepted (fs : List (String × Json)) : Prop :=
  getField fs "metrics" = none ∨
  ∃ mfs, getField fs "metrics" = some (.obj mfs) ∧
    mfs.all (fun kv => isMetricValue kv.2) = true

/-- The optional-labels check of `LogDocumentSchema` passes exactly when
the field is absent or an object of union-admitted values. -/
theorem validOptionalLabels_iff (fs : List (String × Json)) :
    validOptionalField fs "labels" validLabels = true ↔
      labelsFieldAccepted fs := by
  unfold validOptionalField labelsFieldAccepted
  cases hv : getField fs "labels" with
  | none => simp
  | some v => cases v <;> simp [validLabels]

/-- The optional-metrics check of `LogDocumentSchema` passes exactly when
the field is absent or an object of union-admitted values. -/
theorem validOptionalMetrics_iff (fs : List (String × Json)) :
    validOptionalField fs "metrics" validMetrics = true ↔
      metricsFieldAccepted fs := by
  unfold validOptionalField metricsFieldAccepted
  cases hv : getField fs "metrics" with
  | none => simp
  | some v => cases v <;> simp [validMetrics]

/-- C7 amended: a raw document validates exactly when its core fields
validate and each of the two maps, when present at all, is an object
whose every value lies in the union its schema declares — labels accept
string, number and boolean values, metrics only number and string
values, under unconstrained keys.  Consequently a non-scalar entry
(object or array) in either map sinks the document regardless of whether
the other map is present, and a boolean or null metrics entry is
rejected although scalar. -/
theorem c7_amended (fs : List (String × Json)) :
    (validLogDocument (.obj fs) = true ↔
      validLogDocumentCore fs = true ∧
      labelsFieldAccepted fs ∧ metricsFieldAccepted fs)
    ∧ (∀ lfs, getField fs "labels" = some (.obj lfs) →
        lfs.any (fun kv => !isScalarJson kv.2) = true →
        validLogDocument (.obj fs) = false)
    ∧ (∀ mfs, getField fs "metrics" = some (.obj mfs) →
        mfs.any (fun kv => !isScalarJson kv.2) = true →
        validLogDocument (.obj fs) = false) := by
  have hiff : validLogDocument (.obj fs) = true ↔
      validLogDocumentCore fs = true ∧
      labelsFieldAccepted fs ∧ metricsFieldAccepted fs := by
    rw [← validOptionalLabels_iff, ← validOptionalMetrics_iff]
    simp [validLogDocument, and_assoc]
  refine ⟨hiff, ?_, ?_⟩
  · intro lfs hl hbad
    rcases Bool.eq_false_or_eq_true (validLogDocument (.obj fs)) with ht | hf
    · exfalso
      obtain ⟨-, hlab, -⟩ := hiff.mp ht
      rcases hlab with hnone | ⟨lfs2, hl2, hall⟩
      · rw [hl] at hnone; cases hnone
      · rw [hl] at hl2
        simp only [Option.some.injEq, Json.obj.injEq] at hl2
        subst hl2
        obtain ⟨kv, hkv, hns⟩ := List.any_eq_true.mp hbad
        have hval := List.all_eq_true.mp hall kv hkv
        have hsc := isLabelValue_scalar kv.2 hval
        simp [hsc] at hns
    · exact hf
  · intro mfs hm hbad
    rcases Bool.eq_false_or_eq_true (validLogDocument (.obj fs)) with ht | hf
    · exfalso
      obtain ⟨-, -, hmet⟩ := hiff.mp ht
      rcases hmet with hnone | ⟨mfs2, hm2, hall⟩
      · rw [hm] at hnone; cases hnone
      · rw [hm] at hm2
        simp only [Option.some.injEq, Json.obj.injEq] at hm2
        subst hm2
        obtain ⟨kv, hkv, hns⟩ := List.any_eq_true.mp hbad
        have hval := List.all_eq_true.mp hall kv hkv
        have hsc := isMetricValue_scalar kv.2 hval
        simp [hsc] at hns
    · exact hf

/-- A document whose `labels` map holds a non-scalar entry and whose
`metrics` map is absent altogether. -/
def labelsNonScalarFields : List (String × Json) :=
  [("@timestamp", .str "2025-09-18T10:00:00Z"),
   ("service", .obj [("name", .str "api")]),
   ("event", .obj [("action", .str "db_pool_low")]),
   ("message", .str "pool low"),
   ("labels", .obj [("ctx", .obj [("nested", .num 1)])])]

theorem c7_amended_witness :
    validLogDocument (.obj arbitraryKeyFields) = true ∧
    validLogDocument (.obj labelsNonScalarFields) = false :=
  ⟨((c7_amended arbitraryKeyFields).1).mpr
     ⟨by decide,
      Or.inr ⟨[("weird key 42", .bool true), ("region", .str "eu-west-1"),
               ("attempt", .num 2)], rfl, by decide⟩,
      Or.inr ⟨[("p95_ms", .num 980), ("build", .str "abc123")], rfl,
        by decide⟩⟩,
   (c7_amended labelsNonScalarFields).2.1
     [("ctx", .obj [("nested", .num 1)])] rfl (by decide)⟩

/-! ## Part A.2 — `validateAgentEnvironment` of `env.ts` -/

/-- The result of `agentEnvSchema.parse`: the optional Elasticsearch
variables come back as absent (`none`) or as a string, possibly empty —
`z.string().optional()` places no lower bound on length.  `ELASTIC_INDEX`
has a default, so it is always a string after parsing.  Fields that the
credential logic never reads (`NODE_ENV`, `AGENT_PORT`,
`GOOGLE_APPLICATION_CREDENTIALS`) are carried for fidelity. -/
structure ParsedAgentEnv where
  nodeEnv : String
  agentPort : Nat
  gcpProjectId : String
  googleApplicationCredentials : Option String
  elasticCloudId : Option String
  elasticApiKey : Option String
  elasticNode : Option String
  elasticUsername : Option String
  elasticPassword : Option String
  elasticIndex : String

/-- JavaScript truthiness of an optional string: `undefined` and the empty
string are falsy, every other string is truthy. -/
def truthy : Option String → Bool
  | none => false
  | some s => !s.isEmpty

/-- The `elasticsearch` object attached on success: the cloud variant
carries `cloudId`/`apiKey`/`index`, the local variant
`node`/`username`/`password`/`index`. -/
inductive ElasticsearchConfig where
  | cloud (cloudId apiKey index : String)
  | localES (node username password index : String)

/-- The `type` discriminator of the attached `elasticsearch` object. -/
def ElasticsearchConfig.isCloud : ElasticsearchConfig → Bool
  | .cloud _ _ _ => true
  | .localES _ _ _ _ => false

/-- `hasCloudCredentials` of `env.ts`:
`parsedEnv.ELASTIC_CLOUD_ID && parsedEnv.ELASTIC_API_KEY`. -/
def hasCloudCredentials (e : ParsedAgentEnv) : Bool :=
  truthy e.elasticCloudId && truthy e.elasticApiKey

/-- `hasLocalCredentials` of `env.ts`:
`parsedEnv.ELASTIC_NODE && parsedEnv.ELASTIC_USERNAME && parsedEnv.ELASTIC_PASSWORD`. -/
def hasLocalCredentials (e : ParsedAgentEnv) : Bool :=
  truthy e.elasticNode && truthy e.elasticUsername && truthy e.elasticPassword

/-- `validateAgentEnvironment` after a successful schema parse: throws
(modelled as `Except.error`) when neither credential set is truthy,
otherwise returns the parsed environment together with the
`elasticsearch` object; the non-null assertions `!` of the source are
modelled by `Option.getD ""`, which in the reachable branches always hits
a `some`. -/
def validateAgentEnvironment (e : ParsedAgentEnv) :
    Except String (ParsedAgentEnv × ElasticsearchConfig) :=
  if !hasCloudCredentials e && !hasLocalCredentials e then
    .error "Missing Elasticsearch credentials"
  else
    .ok (e,
      if hasCloudCredentials e then
        .cloud (e.elasticCloudId.getD "") (e.elasticApiKey.getD "")
          e.elasticIndex
      else
        .localES (e.elasticNode.getD "") (e.elasticUsername.getD "")
          (e.elasticPassword.getD "") e.elasticIndex)

/-- C8: `validateAgentEnvironment` throws exactly when neither the two
cloud credentials nor the three local credentials are all set non-empty;
on success the attached `elasticsearch` object is the cloud variant
exactly when both cloud credentials are set non-empty (and the local
variant otherwise, the two variants being exhaustive). -/
theorem c8_validate_agent_environment (e : ParsedAgentEnv) :
    ((∃ msg, validateAgentEnvironment e = .error msg) ↔
      ¬(hasCloudCredentials e = true ∨ hasLocalCredentials e = true))
    ∧ (∀ env cfg, validateAgentEnvironment e = .ok (env, cfg) →
        env = e ∧ (cfg.isCloud = true ↔ hasCloudCredentials e = true)) := by
  by_cases hc : hasCloudCredentials e = true <;>
    by_cases hl : hasLocalCredentials e = true <;>
      constructor <;>
        simp_all [validateAgentEnvironment, ElasticsearchConfig.isCloud]

/-- An agent environment with only cloud credentials set. -/
def envCloudExample : ParsedAgentEnv :=
  { nodeEnv := "development", agentPort := 3001, gcpProjectId := "demo"
    googleApplicationCredentials := none
    elasticCloudId := some "cloud-id", elasticApiKey := some "api-key"
    elasticNode := none, elasticUsername := none, elasticPassword := none
    elasticIndex := "causalops-logs" }

/-- An agent environment with no Elasticsearch credentials at all. -/
def envEmptyExample : ParsedAgentEnv :=
  { nodeEnv := "development", agentPort := 3001, gcpProjectId := "demo"
    googleApplicationCredentials := none
    elasticCloudId := none, elasticApiKey := some ""
    elasticNode := none, elasticUsername := none, elasticPassword := none
    elasticIndex := "causalops-logs" }

theorem c8_witness :
    (∃ msg, validateAgentEnvironment envEmptyExample = .error msg) ∧
    (ElasticsearchConfig.isCloud
        (.cloud "cloud-id" "api-key" "causalops-logs") = true ↔
      hasCloudCredentials envCloudExample = true) :=
  ⟨(c8_validate_agent_environment envEmptyExample).1.mpr (by decide),
   ((c8_validate_agent_environment envCloudExample).2 envCloudExample
      (.cloud "cloud-id" "api-key" "causalops-logs") rfl).2⟩

/-! ## Part A.3 — `ElasticIndexInitializer` of `elastic-client.ts` -/

/-- The outcome of one call on the Elasticsearch client: the promise
resolves with a value or rejects with an error message. -/
inductive ClientResult (α : Type) where
  | ok (value : α) : ClientResult α
  | err (message : String) : ClientResult α
  deriving DecidableEq

/-- `checkIndexExists`: `await client.indices.exists(...)` inside
`try/catch`; the catch arm logs and returns `false`.  The total return
type `Bool` is the formal content of "never propagates an exception". -/
def checkIndexExists (raw : ClientResult Bool) : Bool :=
  match raw with
  | .ok b => b
  | .err _ => false

/-- The client calls `initializeIndex` can issue, in order. -/
inductive ElasticAction where
  | deleteIndex (name : String) : ElasticAction
  | createIndex (name : String) : ElasticAction
  | indexDoc (name : String) : ElasticAction
  | deleteDoc (name : String) : ElasticAction
  deriving DecidableEq

/-- One run's client behaviour: the outcome of the exists check, of the
mapping load, and of the delete / create / test-write calls, fixed up
front so a run of `initializeIndex` is a pure function of them. -/
structure ClientBehavior where
  existsResult : ClientResult Bool
  mappingLoad : ClientResult Unit
  deleteResult : ClientResult Unit
  createResult : ClientResult Unit
  writeResult : ClientResult Unit

/-- `IndexInitOptions` of `elastic-client.ts`: all fields optional. -/
structure IndexInitOptions where
  indexName : Option String
  mappingPath : Option String
  recreate : Option Bool

/-- The tail of `initializeIndex` after the exists check decided to build:
load the mapping, create the index, test-write (index then delete a
document); every failure propagates. -/
def createAndTest (cb : ClientBehavior) (name : String)
    (done : List ElasticAction) : Except String (List ElasticAction) :=
  match cb.mappingLoad with
  | .err m => .error m
  | .ok _ =>
      match cb.createResult with
      | .err m => .error m
      | .ok _ =>
          match cb.writeResult with
          | .err m => .error m
          | .ok _ =>
              .ok (done ++ [.createIndex name, .indexDoc name, .deleteDoc name])

/-- `initializeIndex`: resolve the name and the `recreate` flag
(`options.recreate || false`), run `checkIndexExists`; if the index exists
and `recreate` is set, delete then rebuild; if it exists otherwise,
return at once; else build.  The result is the ordered list of
state-changing client calls the run performed. -/
def initializeIndex (cb : ClientBehavior) (envIndex : String)
    (opts : IndexInitOptions) : Except String (List ElasticAction) :=
  let indexName := opts.indexName.getD envIndex
  let recreate := opts.recreate.getD false
  let indexExists := checkIndexExists cb.existsResult
  if indexExists && recreate then
    match cb.deleteResult with
    | .err m => .error m
    | .ok _ => createAndTest cb indexName [.deleteIndex indexName]
  else if indexExists then
    .ok []
  else
    createAndTest cb indexName []

/-- C9: when the exists check reports that the target index is already
there and `recreate` was not passed, `initializeIndex` returns
successfully having issued no delete, create or document write — the
store is left exactly as found. -/
theorem c9_initialize_existing_index_no_ops (cb : ClientBehavior)
    (envIndex : String) (opts : IndexInitOptions)
    (hex : cb.existsResult = .ok true) (hrec : opts.recreate = none) :
    initializeIndex cb envIndex opts = .ok [] := by
  simp [initializeIndex, checkIndexExists, hex, hrec]

theorem c9_witness :
    initializeIndex
      { existsResult := .ok true, mappingLoad := .ok (), deleteResult := .ok ()
        createResult := .ok (), writeResult := .ok () }
      "causalops-logs"
      { indexName := none, mappingPath := none, recreate := none } = .ok [] :=
  c9_initialize_existing_index_no_ops _ _ _ rfl rfl

/-- C10: `checkIndexExists` is total over client outcomes and reports
`true` only for a successful call that found the index; every client
failure is absorbed into `false`, indistinguishable from the index not
existing. -/
theorem c10_check_index_exists_total :
    (∀ msg, checkIndexExists (.err msg) = false) ∧
    (∀ b, checkIndexExists (.ok b) = b) ∧
    (∀ raw, checkIndexExists raw = true ↔ raw = .ok true) := by
  refine ⟨fun msg => rfl, fun b => rfl, fun raw => ?_⟩
  cases raw with
  | ok b => cases b <;> simp [checkIndexExists]
  | err m => simp [checkIndexExists]

/-! ## Part B — the diagnosis pipeline, modelled from the spec

The evidence assembler, schema validator and causal-graph synthesizer are
described in the design documents but not implemented in the source tree;
the definitions below are modelled from the specification. -/

/-- Modelled from the spec: the resolved time window of one diagnosis
request, the PRD's `timeframe` object; instants are modelled as natural
numbers (epoch seconds). -/
structure TimeWindow where
  gte : Nat
  lte : Nat

/-- Modelled from the spec: one hit as it comes back from the evidence
store, before the assembler attaches a deep-link identifier. -/
structure RawHit where
  docId : String
  timestamp : Nat
  serviceName : String
  eventAction : String
  message : String
  traceId : Option String

/-- Modelled from the spec: an `EventHit` owned by the assembler —
timestamp, service name, event action, message, optional trace id, plus
the deep-link identifier attached for downstream citation. -/
structure EventHit where
  timestamp : Nat
  serviceName : String
  eventAction : String
  message : String
  traceId : Option String
  evidenceId : String

/-- Modelled from the spec: deep-link identifiers are derived
deterministically from `(storeIndex, documentId)` — the PRD renders them
as `index/_id`. -/
def attachDeepLink (storeIndex : String) (h : RawHit) : EventHit :=
  { timestamp := h.timestamp, serviceName := h.serviceName
    eventAction := h.eventAction, message := h.message
    traceId := h.traceId
    evidenceId := storeIndex ++ "/" ++ h.docId }

/-- Modelled from the spec: the store adapter's error taxonomy —
`StoreUnavailable` on connection/auth failure, `QueryError` on a
malformed pattern. -/
inductive StoreError where
  | storeUnavailable (detail : String) : StoreError
  | queryError (detail : String) : StoreError

/-- Modelled from the spec: one pattern's slot in the evidence bundle. -/
structure PatternEvidence where
  patternName : String
  hits : List EventHit

/-- Modelled from the spec: the `EvidenceBundle` — pattern name to hits,
plus the resolved window. -/
structure EvidenceBundle where
  window : TimeWindow
  patterns : List PatternEvidence

/-- The fixed set of named patterns bound at deployment time. -/
def patternNames : List String := ["latency_spike", "db_pool_low", "config_change"]

/-- Modelled from the spec: the Evidence Assembler — one query per
pattern; a failed query maps that pattern to an empty hit list instead of
failing the request (partial-failure policy, §4.2); successful hits get
deep links attached. -/
def assembleEvidence (store : String → Except StoreError (List RawHit))
    (storeIndex : String) (w : TimeWindow) (names : List String) :
    EvidenceBundle :=
  { window := w
    patterns := names.map (fun p =>
      match store p with
      | .ok hits =>
          { patternName := p, hits := hits.map (attachDeepLink storeIndex) }
      | .error _ => { patternName := p, hits := [] }) }

/-- Modelled from the spec: a schema violation carries a field path and a
human-readable reason. -/
structure Violation where
  path : String
  reason : String

/-- Modelled from the spec: `GraphNode` — id and label. -/
structure GraphNode where
  id : String
  label : String

/-- Modelled from the spec: the closed confidence enum. -/
inductive Confidence where
  | high : Confidence
  | medium : Confidence
  | low : Confidence

/-- Modelled from the spec: `GraphEdge` — endpoints by node id, cited
evidence ids, and a confidence label. -/
structure GraphEdge where
  fromId : String
  toId : String
  evidenceIds : List String
  confidence : Confidence

/-- Modelled from the spec: `CausalGraph`, optionally annotated with a
`missingSignals` note. -/
structure CausalGraph where
  nodes : List GraphNode
  edges : List GraphEdge
  missingSignals : Option String

/-- Modelled from the spec: `RunbookStep`; the generation schema requires
title, command and confidence, with rationale and requiresConfirmation
optional in the raw JSON. -/
structure RunbookStep where
  title : String
  command : String
  rationale : Option String
  requiresConfirmation : Option Bool
  confidence : Confidence

/-- Modelled from the spec: `RunbookPlan` — summary plus ordered steps. -/
structure RunbookPlan where
  summary : String
  steps : List RunbookStep

/-- Modelled from the spec: the two output schemas the validator is
parametric over. -/
inductive SchemaKind where
  | graphKind : SchemaKind
  | runbookKind : SchemaKind

/-- Modelled from the spec: the typed value a successful validation
returns, tagged by schema kind. -/
inductive TypedValue where
  | graphValue (g : CausalGraph) : TypedValue
  | runbookValue (p : RunbookPlan) : TypedValue

/-- A required string field: missing or wrongly typed is a violation —
never a coercion. -/
def requireString (fs : List (String × Json)) (key : String) :
    Except Violation String :=
  match getField fs key with
  | none => .error { path := key, reason := "required field missing" }
  | some (.str s) => .ok s
  | some _ => .error { path := key, reason := "expected a string" }

/-- The `confidence` field: a required string drawn from the closed enum. -/
def requireConfidence (fs : List (String × Json)) :
    Except Violation Confidence :=
  match getField fs "confidence" with
  | none => .error { path := "confidence", reason := "required field missing" }
  | some (.str "high") => .ok .high
  | some (.str "medium") => .ok .medium
  | some (.str "low") => .ok .low
  | some (.str _) =>
      .error { path := "confidence", reason := "enum value outside the declared set" }
  | some _ => .error { path := "confidence", reason := "expected a string" }

/-- Every element of `evidenceIds` must already be a string. -/
def requireStringItems (key : String) : List Json → Except Violation (List String)
  | [] => .ok []
  | .str s :: rest =>
      match requireStringItems key rest with
      | .ok tail => .ok (s :: tail)
      | .error v => .error v
  | _ :: _ => .error { path := key, reason := "expected an array of strings" }

/-- The optional `evidenceIds` field of an edge. -/
def parseEvidenceIds (fs : List (String × Json)) :
    Except Violation (List String) :=
  match getField fs "evidenceIds" with
  | none => .ok []
  | some (.arr items) => requireStringItems "evidenceIds" items
  | some _ => .error { path := "evidenceIds", reason := "expected an array" }

/-- Parse one node item of the graph schema. -/
def parseNodeItem (j : Json) : Except Violation GraphNode :=
  match j with
  | .obj fs =>
      match requireString fs "id" with
      | .error v => .error v
      | .ok i =>
          match requireString fs "label" with
          | .error v => .error v
          | .ok l => .ok { id := i, label := l }
  | _ => .error { path := "nodes", reason := "expected an object" }

/-- Parse one edge item of the graph schema. -/
def parseEdgeItem (j : Json) : Except Violation GraphEdge :=
  match j with
  | .obj fs =>
      match requireString fs "from" with
      | .error v => .error v
      | .ok f =>
          match requireString fs "to" with
          | .error v => .error v
          | .ok t =>
              match requireConfidence fs with
              | .error v => .error v
              | .ok c =>
                  match parseEvidenceIds fs with
                  | .error v => .error v
                  | .ok ids =>
                      .ok { fromId := f, toId := t, evidenceIds := ids
                            confidence := c }
  | _ => .error { path := "edges", reason := "expected an object" }

/-- An optional string field: absent is fine, a non-string is a violation. -/
def parseOptionalString (fs : List (String × Json)) (key : String) :
    Except Violation (Option String) :=
  match getField fs key with
  | none => .ok none
  | some (.str s) => .ok (some s)
  | some _ => .error { path := key, reason := "expected a string" }

/-- An optional boolean field: absent is fine, a non-boolean is a
violation — in particular no truthiness coercion. -/
def parseOptionalBool (fs : List (String × Json)) (key : String) :
    Except Violation (Option Bool) :=
  match getField fs key with
  | none => .ok none
  | some (.bool b) => .ok (some b)
  | some _ => .error { path := key, reason := "expected a boolean" }

/-- Parse one runbook step item. -/
def parseStepItem (j : Json) : Except Violation RunbookStep :=
  match j with
  | .obj fs =>
      match requireString fs "title" with
      | .error v => .error v
      | .ok t =>
          match requireString fs "command" with
          | .error v => .error v
          | .ok c =>
              match requireConfidence fs with
              | .error v => .error v
              | .ok conf =>
                  match parseOptionalString fs "rationale" with
                  | .error v => .error v
                  | .ok r =>
                      match parseOptionalBool fs "requiresConfirmation" with
                      | .error v => .error v
                      | .ok rc =>
                          .ok { title := t, command := c, rationale := r
                                requiresConfirmation := rc, confidence := conf }
  | _ => .error { path := "steps", reason := "expected an object" }

/-- Parse every item of an array, stopping at the first violation. -/
def parseItems {α : Type} (p : Json → Except Violation α) :
    List Json → Except Violation (List α)
  | [] => .ok []
  | j :: rest =>
      match p j with
      | .error v => .error v
      | .ok a =>
          match parseItems p rest with
          | .error v => .error v
          | .ok tail => .ok (a :: tail)

/-- Modelled from the spec: validate a raw JSON value against the graph
schema — required `nodes` and `edges` arrays, hard caps of 8 nodes and 10
edges, per-item field checks with no type coercion. -/
def validateGraphRaw (raw : Json) : Except (List Violation) CausalGraph :=
  match raw with
  | .obj fs =>
      match getField fs "nodes" with
      | none => .error [{ path := "nodes", reason := "required field missing" }]
      | some (.arr nodeItems) =>
          match getField fs "edges" with
          | none => .error [{ path := "edges", reason := "required field missing" }]
          | some (.arr edgeItems) =>
              if nodeItems.length > 8 then
                .error [{ path := "nodes", reason := "more than 8 nodes" }]
              else if edgeItems.length > 10 then
                .error [{ path := "edges", reason := "more than 10 edges" }]
              else
                match parseItems parseNodeItem nodeItems,
                      parseItems parseEdgeItem edgeItems with
                | .ok ns, .ok es =>
                    .ok { nodes := ns, edges := es, missingSignals := none }
                | .error v, _ => .error [v]
                | _, .error v => .error [v]
          | some _ => .error [{ path := "edges", reason := "expected an array" }]
      | some _ => .error [{ path := "nodes", reason := "expected an array" }]
  | _ => .error [{ path := "value", reason := "expected an object" }]

/-- Modelled from the spec: validate a raw JSON value against the runbook
schema — required `summary` string and `steps` array, hard cap of 6
steps, per-item field checks with no type coercion. -/
def validateRunbookRaw (raw : Json) : Except (List Violation) RunbookPlan :=
  match raw with
  | .obj fs =>
      match getField fs "summary" with
      | none => .error [{ path := "summary", reason := "required field missing" }]
      | some (.str summary) =>
          match getField fs "steps" with
          | none => .error [{ path := "steps", reason := "required field missing" }]
          | some (.arr stepItems) =>
              if stepItems.length > 6 then
                .error [{ path := "steps", reason := "more than 6 steps" }]
              else
                match parseItems parseStepItem stepItems with
                | .ok steps => .ok { summary := summary, steps := steps }
                | .error v => .error [v]
          | some _ => .error [{ path := "steps", reason := "expected an array" }]
      | some _ => .error [{ path := "summary", reason := "expected a string" }]
  | _ => .error [{ path := "value", reason := "expected an object" }]

/-- Modelled from the spec: the schema-kind-parametric validator
`validate(rawValue, schemaKind)`. -/
def validate (raw : Json) (kind : SchemaKind) :
    Except (List Violation) TypedValue :=
  match kind with
  | .graphKind => (validateGraphRaw raw).map .graphValue
  | .runbookKind => (validateRunbookRaw raw).map .runbookValue

/-- The directed edge pairs of a graph. -/
def edgePairs (es : List GraphEdge) : List (String × String) :=
  es.map (fun e => (e.fromId, e.toId))

/-- A nonempty directed path along the listed edges. -/
inductive EdgePath (es : List (String × String)) : String → String → Prop where
  | single (a b : String) : (a, b) ∈ es → EdgePath es a b
  | cons (a b c : String) : (a, b) ∈ es → EdgePath es b c → EdgePath es a c

/-- A graph's edge set is acyclic when no node reaches itself. -/
def AcyclicEdges (es : List (String × String)) : Prop :=
  ∀ v, ¬EdgePath es v v

/-- Every edge goes strictly forward along `ord` — a topological-order
certificate. -/
def forwardOrdered (ord : List String) (es : List (String × String)) : Bool :=
  es.all (fun e =>
    ord.contains e.1 && ord.contains e.2 &&
      decide (ord.indexOf e.1 < ord.indexOf e.2))

/-- Kahn-style peeling: repeatedly emit the nodes without incoming edges
from the remaining nodes; `fuel` bounds the recursion. -/
def kahnOrder (fuel : Nat) (ns : List String) (es : List (String × String)) :
    List String :=
  match fuel with
  | 0 => []
  | fuel + 1 =>
      if ns.isEmpty then []
      else
        let sources := ns.filter (fun n =>
          !(es.any (fun e => e.2 == n && ns.contains e.1)))
        if sources.isEmpty then []
        else
          sources ++ kahnOrder fuel (ns.filter (fun n => !(sources.contains n)))
            (es.filter (fun e => !(sources.contains e.1)))

/-- Modelled from the spec: the small topological-sort acyclicity check
of §9 — compute a candidate order and verify that every edge goes
forward along it. -/
def isAcyclicCheck (ns : List String) (es : List (String × String)) : Bool :=
  forwardOrdered (kahnOrder ns.length ns es) es

/-- Modelled from the spec: the structural DAG invariant checked in the
Validating state beyond pure schema shape — every edge endpoint resolves
to a declared node id and the edge set is acyclic. -/
def structuralCheck (g : CausalGraph) : Bool :=
  (g.edges.all (fun e =>
    (g.nodes.map GraphNode.id).contains e.fromId &&
      (g.nodes.map GraphNode.id).contains e.toId))
  && isAcyclicCheck (g.nodes.map GraphNode.id) (edgePairs g.edges)

/-- Modelled from the spec: the Validating state — the schema validator
followed by the structural DAG check. -/
def validateGraphOutput (raw : Json) : Except (List Violation) CausalGraph :=
  match validateGraphRaw raw with
  | .error vs => .error vs
  | .ok g =>
      if structuralCheck g then .ok g
      else .error [{ path := "edges", reason := "invariant violation" }]

/-- The synthesizer's states, per the §4.4 state machine. -/
inductive SynthState where
  | idle : SynthState
  | requesting : SynthState
  | validating : SynthState
  | accepted : SynthState
  | repairing : SynthState
  | fallbackState : SynthState
  deriving DecidableEq

/-- The synthesizer's observable outcome: the graph it returns, the
states it passed through in order, and how many generator calls it made. -/
structure SynthResult where
  graph : CausalGraph
  visited : List SynthState
  generatorCalls : Nat

/-- All patterns came back empty. -/
def totalEvidenceEmpty (b : EvidenceBundle) : Bool :=
  b.patterns.all (fun p => p.hits.isEmpty)

/-- Modelled from the spec: the deterministic minimal graph of the
Fallback state — at most the top 1–3 nodes derived from distinct event
actions present in evidence, no synthesized edges, and a `missingSignals`
note. -/
def fallbackGraph (b : EvidenceBundle) : CausalGraph :=
  let actions := ((b.patterns.map (fun p =>
    p.hits.map EventHit.eventAction)).flatten).eraseDups
  { nodes := (actions.take 3).map (fun a => { id := a, label := a })
    edges := []
    missingSignals := some "missingSignals: evidence too sparse to synthesize edges" }

/-- Modelled from the spec: the Causal Graph Synthesizer state machine
`Idle → Requesting → Validating → (Accepted | Repairing → Validating |
Fallback)`.  The generator is an opaque capability: `gen none` answers
the initial request, `gen (some violations)` the single repair request
carrying the violation list as corrective context.  An empty bundle goes
to Fallback directly, without any generator call. -/
def synthesizeGraph (gen : Option (List Violation) → Json)
    (b : EvidenceBundle) : SynthResult :=
  if totalEvidenceEmpty b then
    { graph := fallbackGraph b
      visited := [.idle, .fallbackState]
      generatorCalls := 0 }
  else
    match validateGraphOutput (gen none) with
    | .ok g =>
        { graph := g
          visited := [.idle, .requesting, .validating, .accepted]
          generatorCalls := 1 }
    | .error vs =>
        match validateGraphOutput (gen (some vs)) with
        | .ok g =>
            { graph := g
              visited := [.idle, .requesting, .validating, .repairing,
                          .validating, .accepted]
              generatorCalls := 2 }
        | .error _ =>
            { graph := fallbackGraph b
              visited := [.idle, .requesting, .validating, .repairing,
                          .validating, .fallbackState]
              generatorCalls := 2 }

/-- Modelled from the spec: the `diagnose` response shape
`(timeframe, evidence, graph)`. -/
structure DiagnoseResponse where
  timeframe : TimeWindow
  evidence : EvidenceBundle
  graph : CausalGraph

/-- The default diagnosis window length, in minutes. -/
def defaultWindowMins : Nat := 10

/-- The default evidence index. -/
def defaultIndex : String := "causalops-logs"

/-- Modelled from the spec: the diagnosis entry point
`diagnose(window?, indexOverride?)` — resolve the window (10 minutes back
from `now` when unspecified) and the index, assemble evidence, synthesize
the graph, and return `(timeframe, evidence, graph)`. -/
def diagnose (store : String → String → Except StoreError (List RawHit))
    (gen : Option (List Violation) → Json) (now : Nat)
    (window : Option TimeWindow) (indexOverride : Option String) :
    DiagnoseResponse :=
  let w := window.getD { gte := now - defaultWindowMins * 60, lte := now }
  let idx := indexOverride.getD defaultIndex
  let bundle := assembleEvidence (store idx) idx w patternNames
  let result := synthesizeGraph gen bundle
  { timeframe := w, evidence := bundle, graph := result.graph }

/-- Along a forward-ordered certificate, every path strictly increases
the index in the order. -/
theorem forwardOrdered_path_lt (ord : List String)
    (es : List (String × String)) (hord : forwardOrdered ord es = true)
    {a b : String} (hp : EdgePath es a b) :
    ord.indexOf a < ord.indexOf b := by
  induction hp with
  | single a b hmem =>
      have h := List.all_eq_true.mp hord _ hmem
      simp only [Bool.and_eq_true, decide_eq_true_eq] at h
      exact h.2
  | cons a b c hmem _ ih =>
      have h := List.all_eq_true.mp hord _ hmem
      simp only [Bool.and_eq_true, decide_eq_true_eq] at h
      exact Nat.lt_trans h.2 ih

/-- A forward-ordered certificate rules out every cycle. -/
theorem acyclic_of_forwardOrdered (ord : List String)
    (es : List (String × String)) (h : forwardOrdered ord es = true) :
    AcyclicEdges es :=
  fun _ hp => absurd (forwardOrdered_path_lt ord es h hp) (Nat.lt_irrefl _)

/-- An empty edge list is acyclic. -/
theorem acyclicEdges_nil : AcyclicEdges [] := by
  intro v hp
  cases hp with
  | single _ _ h => exact absurd h (List.not_mem_nil _)
  | cons _ _ _ h _ => exact absurd h (List.not_mem_nil _)

/-- A graph passing the structural check has resolving endpoints and an
acyclic edge set. -/
theorem structuralCheck_sound (g : CausalGraph)
    (h : structuralCheck g = true) :
    (∀ e ∈ g.edges, e.fromId ∈ g.nodes.map GraphNode.id ∧
        e.toId ∈ g.nodes.map GraphNode.id)
    ∧ AcyclicEdges (edgePairs g.edges) := by
  simp only [structuralCheck, Bool.and_eq_true] at h
  obtain ⟨hends, hacy⟩ := h
  constructor
  · intro e he
    have h2 := List.all_eq_true.mp hends e he
    simp only [Bool.and_eq_true] at h2
    exact ⟨by simpa using h2.1, by simpa using h2.2⟩
  · exact acyclic_of_forwardOrdered _ _ hacy

/-- `parseItems` preserves the item count. -/
theorem parseItems_ok_length {α : Type} (p : Json → Except Violation α)
    (items : List Json) (found : List α)
    (h : parseItems p items = .ok found) : found.length = items.length := by
  induction items generalizing found with
  | nil =>
      simp only [parseItems, Except.ok.injEq] at h
      simp [← h]
  | cons j rest ih =>
      simp only [parseItems] at h
      cases hpj : p j with
      | error v => rw [hpj] at h; exact absurd h (by simp)
      | ok a =>
          rw [hpj] at h
          cases hrest : parseItems p rest with
          | error v => rw [hrest] at h; exact absurd h (by simp)
          | ok tail =>
              rw [hrest] at h
              simp only [Except.ok.injEq] at h
              subst h
              simp [ih tail hrest]

/-- The graph schema validator only accepts graphs inside the caps. -/
theorem validateGraphRaw_ok_caps (raw : Json) (g : CausalGraph)
    (h : validateGraphRaw raw = .ok g) :
    g.nodes.length ≤ 8 ∧ g.edges.length ≤ 10 := by
  cases raw with
  | obj fs =>
      simp only [validateGraphRaw] at h
      cases hn : getField fs "nodes" with
      | none => rw [hn] at h; exact absurd h (by simp)
      | some nv =>
          rw [hn] at h
          cases nv with
          | arr nodeItems =>
              cases he : getField fs "edges" with
              | none => rw [he] at h; exact absurd h (by simp)
              | some ev =>
                  rw [he] at h
                  cases ev with
                  | arr edgeItems =>
                      by_cases hcn : nodeItems.length > 8
                      · simp [hcn] at h
                      · by_cases hce : edgeItems.length > 10
                        · simp [hcn, hce] at h
                        · simp only [hcn, hce, if_false] at h
                          cases hpn : parseItems parseNodeItem nodeItems with
                          | error v => rw [hpn] at h; simp at h
                          | ok ns =>
                              cases hpe : parseItems parseEdgeItem edgeItems with
                              | error v => rw [hpn, hpe] at h; simp at h
                              | ok es =>
                                  rw [hpn, hpe] at h
                                  simp only [Except.ok.injEq] at h
                                  have hns := parseItems_ok_length parseNodeItem nodeItems ns hpn
                                  have hes := parseItems_ok_length parseEdgeItem edgeItems es hpe
                                  subst h
                                  constructor
                                  · simpa [hns] using Nat.le_of_not_lt hcn
                                  · simpa [hes] using Nat.le_of_not_lt hce
                  | null => simp at h
                  | bool b => simp at h
                  | num n => simp at h
                  | str s => simp at h
                  | obj gs => simp at h
          | null => simp at h
          | bool b => simp at h
          | num n => simp at h
          | str s => simp at h
          | obj gs => simp at h
  | null => simp [validateGraphRaw] at h
  | bool b => simp [validateGraphRaw] at h
  | num n => simp [validateGraphRaw] at h
  | str s => simp [validateGraphRaw] at h
  | arr xs => simp [validateGraphRaw] at h

/-- The invariant C2 demands of every graph the system returns. -/
def GraphInvariants (g : CausalGraph) : Prop :=
  g.nodes.length ≤ 8 ∧ g.edges.length ≤ 10 ∧
  (∀ e ∈ g.edges, e.fromId ∈ g.nodes.map GraphNode.id ∧
      e.toId ∈ g.nodes.map GraphNode.id) ∧
  AcyclicEdges (edgePairs g.edges)

/-- A graph accepted by the Validating state satisfies the invariant. -/
theorem validateGraphOutput_ok_invariants (raw : Json) (g : CausalGraph)
    (h : validateGraphOutput raw = .ok g) : GraphInvariants g := by
  have hsplit : validateGraphRaw raw = .ok g ∧ structuralCheck g = true := by
    simp only [validateGraphOutput] at h
    cases hv : validateGraphRaw raw with
    | error vs => rw [hv] at h; exact absurd h (by simp)
    | ok g0 =>
        rw [hv] at h
        by_cases hs : structuralCheck g0 = true
        · simp only [hs, if_true, Except.ok.injEq] at h
          subst h; exact ⟨rfl, hs⟩
        · simp only [Bool.not_eq_true] at hs
          simp [hs] at h
  obtain ⟨hraw, hstruct⟩ := hsplit
  obtain ⟨hn, he⟩ := validateGraphRaw_ok_caps raw g hraw
  obtain ⟨hends, hacy⟩ := structuralCheck_sound g hstruct
  exact ⟨hn, he, hends, hacy⟩

/-- The fallback graph satisfies the invariant with room to spare. -/
theorem fallbackGraph_invariants (b : EvidenceBundle) :
    GraphInvariants (fallbackGraph b) ∧
    (fallbackGraph b).nodes.length ≤ 3 ∧
    (fallbackGraph b).edges = [] ∧
    (fallbackGraph b).missingSignals.isSome = true := by
  have hn3 : (fallbackGraph b).nodes.length ≤ 3 := by
    simp only [fallbackGraph, List.length_map, List.length_take]
    omega
  refine ⟨⟨le_trans hn3 (by omega), ?_, ?_, ?_⟩, hn3, rfl, rfl⟩
  · simp [fallbackGraph]
  · intro e he
    simp [fallbackGraph] at he
  · simpa [fallbackGraph, edgePairs] using acyclicEdges_nil

/-- C2: every causal graph the synthesizer returns — accepted from the
generator on the first or the repaired attempt, or built by the fallback
path — has at most 8 nodes, at most 10 edges, edge endpoints that
reference declared node ids, and an acyclic edge set. -/
theorem c2_accepted_graph_invariants (gen : Option (List Violation) → Json)
    (b : EvidenceBundle) : GraphInvariants ((synthesizeGraph gen b).graph) := by
  unfold synthesizeGraph
  split
  · exact (fallbackGraph_invariants b).1
  · split
    · rename_i g h1
      exact validateGraphOutput_ok_invariants (gen none) g h1
    · rename_i vs h1
      split
      · rename_i g h2
        exact validateGraphOutput_ok_invariants (gen (some vs)) g h2
      · exact (fallbackGraph_invariants b).1

/-- A generator that always answers with a small well-formed graph. -/
def genExample : Option (List Violation) → Json := fun _ =>
  .obj [("nodes", .arr [.obj [("id", .str "n1"),
                              ("label", .str "Config hash changed")],
                        .obj [("id", .str "n2"),
                              ("label", .str "DB pool low")]]),
        ("edges", .arr [.obj [("from", .str "n1"), ("to", .str "n2"),
                              ("evidenceIds",
                                .arr [.str "causalops-logs/doc1"]),
                              ("confidence", .str "high")]])]

/-- A one-pattern bundle with a single config-change hit. -/
def bundleExample : EvidenceBundle :=
  { window := { gte := 0, lte := 600 }
    patterns := [{ patternName := "config_change"
                   hits := [{ timestamp := 10, serviceName := "api"
                              eventAction := "config_change"
                              message := "config hash changed"
                              traceId := none
                              evidenceId := "causalops-logs/doc1" }] }] }

theorem c2_witness :
    GraphInvariants ((synthesizeGraph genExample bundleExample).graph) :=
  c2_accepted_graph_invariants genExample bundleExample

/-- C4: a bundle in which every pattern's hit list is empty sends the
synthesizer down the Fallback path directly — no Requesting, no
Repairing, zero generator calls — and the returned minimal graph has at
most 3 nodes, no edges, and a `missingSignals` note. -/
theorem c4_empty_evidence_direct_fallback
    (gen : Option (List Violation) → Json) (b : EvidenceBundle)
    (h : totalEvidenceEmpty b = true) :
    (synthesizeGraph gen b).graph = fallbackGraph b ∧
    (synthesizeGraph gen b).visited = [SynthState.idle, SynthState.fallbackState] ∧
    SynthState.requesting ∉ (synthesizeGraph gen b).visited ∧
    SynthState.repairing ∉ (synthesizeGraph gen b).visited ∧
    (synthesizeGraph gen b).generatorCalls = 0 ∧
    (fallbackGraph b).nodes.length ≤ 3 ∧
    (fallbackGraph b).edges = [] ∧
    (fallbackGraph b).missingSignals.isSome = true := by
  have hg := fallbackGraph_invariants b
  simp only [synthesizeGraph, h, if_true]
  exact ⟨trivial, trivial, by decide, by decide, trivial, hg.2.1, hg.2.2.1, hg.2.2.2⟩

/-- The three deployed patterns, all empty. -/
def emptyBundleExample : EvidenceBundle :=
  { window := { gte := 0, lte := 600 }
    patterns := [{ patternName := "latency_spike", hits := [] },
                 { patternName := "db_pool_low", hits := [] },
                 { patternName := "config_change", hits := [] }] }

/-- A generator whose output never parses. -/
def genNullExample : Option (List Violation) → Json := fun _ => Json.null

theorem c4_witness :
    totalEvidenceEmpty emptyBundleExample = true ∧
    (synthesizeGraph genNullExample emptyBundleExample).graph =
      fallbackGraph emptyBundleExample ∧
    SynthState.requesting ∉
      (synthesizeGraph genNullExample emptyBundleExample).visited ∧
    (synthesizeGraph genNullExample emptyBundleExample).generatorCalls = 0 :=
  ⟨by decide,
   (c4_empty_evidence_direct_fallback genNullExample emptyBundleExample
      (by decide)).1,
   (c4_empty_evidence_direct_fallback genNullExample emptyBundleExample
      (by decide)).2.2.1,
   (c4_empty_evidence_direct_fallback genNullExample emptyBundleExample
      (by decide)).2.2.2.2.1⟩

/-- The assembler returns one slot per requested pattern, in order. -/
theorem assembleEvidence_names (store : String → Except StoreError (List RawHit))
    (storeIndex : String) (w : TimeWindow) (names : List String) :
    (assembleEvidence store storeIndex w names).patterns.map
      PatternEvidence.patternName = names := by
  induction names with
  | nil => rfl
  | cons q rest ih =>
      simp only [assembleEvidence, List.map_cons] at ih ⊢
      cases hq : store q <;> simp_all

/-- C5: when one pattern's store query fails (in particular with
`StoreUnavailable`), the assembler still returns a bundle covering every
requested pattern — it is a total function, so the request cannot fail —
and the failed pattern is mapped to an empty hit list. -/
theorem c5_partial_failure_degrades
    (store : String → Except StoreError (List RawHit))
    (storeIndex : String) (w : TimeWindow) (names : List String)
    (p : String) (err : StoreError)
    (hp : p ∈ names) (he : store p = .error err) :
    (assembleEvidence store storeIndex w names).patterns.map
      PatternEvidence.patternName = names ∧
    ({ patternName := p, hits := [] } : PatternEvidence) ∈
      (assembleEvidence store storeIndex w names).patterns := by
  refine ⟨assembleEvidence_names store storeIndex w names, ?_⟩
  have hm := List.mem_map_of_mem (fun q =>
    match store q with
    | .ok hits =>
        ({ patternName := q, hits := hits.map (attachDeepLink storeIndex) } :
          PatternEvidence)
    | .error _ => ({ patternName := q, hits := [] } : PatternEvidence)) hp
  simp only [he] at hm
  simpa [assembleEvidence] using hm

/-- A store in which the db-pool pattern is unavailable and the others
answer. -/
def storeExample : String → Except StoreError (List RawHit) := fun p =>
  if p == "db_pool_low" then
    .error (.storeUnavailable "connection refused")
  else
    .ok [{ docId := "doc-" ++ p, timestamp := 10, serviceName := "api"
           eventAction := p, message := "hit for " ++ p, traceId := none }]

theorem c5_witness :
    "db_pool_low" ∈ patternNames ∧
    storeExample "db_pool_low" =
      .error (.storeUnavailable "connection refused") ∧
    ({ patternName := "db_pool_low", hits := [] } : PatternEvidence) ∈
      (assembleEvidence storeExample "causalops-logs" { gte := 0, lte := 600 }
        patternNames).patterns :=
  ⟨by decide, rfl,
   (c5_partial_failure_degrades storeExample "causalops-logs"
      { gte := 0, lte := 600 } patternNames "db_pool_low"
      (.storeUnavailable "connection refused") (by decide) rfl).2⟩

/-- C1: `diagnose` is total — every invocation, with or without a window
or an index override, returns a response of shape
`(timeframe, evidence, graph)`, whose components are the resolved window,
the bundle assembled for it, and the synthesized graph. -/
theorem c1_diagnose_shape
    (store : String → String → Except StoreError (List RawHit))
    (gen : Option (List Violation) → Json) (now : Nat)
    (window : Option TimeWindow) (indexOverride : Option String) :
    ∃ r : DiagnoseResponse,
      diagnose store gen now window indexOverride = r ∧
      r.timeframe = window.getD { gte := now - defaultWindowMins * 60, lte := now } ∧
      r.evidence = assembleEvidence (store (indexOverride.getD defaultIndex))
          (indexOverride.getD defaultIndex) r.timeframe patternNames ∧
      r.graph = (synthesizeGraph gen r.evidence).graph :=
  ⟨_, rfl, rfl, rfl, rfl⟩

/-- Is the value a JSON string? -/
def isStrJson : Json → Bool
  | .str _ => true
  | _ => false

/-- Is the value a JSON array? -/
def isArrJson : Json → Bool
  | .arr _ => true
  | _ => false

/-- Is the value a JSON boolean? -/
def isBoolJson : Json → Bool
  | .bool _ => true
  | _ => false

/-- The string the confidence enum came from. -/
def confidenceString : Confidence → String
  | .high => "high"
  | .medium => "medium"
  | .low => "low"

/-- A raw node item already of the declared shape: an object with string
`id` and `label`. -/
def nodeItemWellTyped (j : Json) : Bool :=
  match j with
  | .obj fs =>
      (match getField fs "id" with | some (.str _) => true | _ => false)
      && (match getField fs "label" with | some (.str _) => true | _ => false)
  | _ => false

/-- The raw `confidence` field is a string inside the declared enum. -/
def confidenceWellTyped (fs : List (String × Json)) : Bool :=
  match getField fs "confidence" with
  | some (.str c) => ["high", "medium", "low"].contains c
  | _ => false

/-- The raw `evidenceIds` field is absent or an array of strings. -/
def evidenceIdsWellTyped (fs : List (String × Json)) : Bool :=
  match getField fs "evidenceIds" with
  | none => true
  | some (.arr items) => items.all isStrJson
  | some _ => false

/-- A raw edge item already of the declared shape. -/
def edgeItemWellTyped (j : Json) : Bool :=
  match j with
  | .obj fs =>
      (match getField fs "from" with | some (.str _) => true | _ => false)
      && (match getField fs "to" with | some (.str _) => true | _ => false)
      && confidenceWellTyped fs
      && evidenceIdsWellTyped fs
  | _ => false

/-- An optional raw field is absent or a string. -/
def optionalStringWellTyped (fs : List (String × Json)) (key : String) : Bool :=
  match getField fs key with
  | none => true
  | some (.str _) => true
  | some _ => false

/-- An optional raw field is absent or a boolean. -/
def optionalBoolWellTyped (fs : List (String × Json)) (key : String) : Bool :=
  match getField fs key with
  | none => true
  | some (.bool _) => true
  | some _ => false

/-- A raw step item already of the declared shape. -/
def stepItemWellTyped (j : Json) : Bool :=
  match j with
  | .obj fs =>
      (match getField fs "title" with | some (.str _) => true | _ => false)
      && (match getField fs "command" with | some (.str _) => true | _ => false)
      && confidenceWellTyped fs
      && optionalStringWellTyped fs "rationale"
      && optionalBoolWellTyped fs "requiresConfirmation"
  | _ => false

/-- A successful `requireString` read an actual string from the field. -/
theorem requireString_ok (fs : List (String × Json)) (key s : String)
    (h : requireString fs key = .ok s) : getField fs key = some (.str s) := by
  simp only [requireString] at h
  cases hv : getField fs key with
  | none => simp [hv] at h
  | some v => cases v <;> simp_all

/-- A successful `requireConfidence` read one of the three enum strings. -/
theorem requireConfidence_ok (fs : List (String × Json)) (c : Confidence)
    (h : requireConfidence fs = .ok c) :
    getField fs "confidence" = some (.str (confidenceString c)) := by
  simp only [requireConfidence] at h
  cases hv : getField fs "confidence" with
  | none => simp [hv] at h
  | some v =>
      cases v with
      | str s =>
          rw [hv] at h
          split at h <;> simp_all [confidenceString] <;> (subst h; rfl)
      | null => simp [hv] at h
      | bool b => simp [hv] at h
      | num n => simp [hv] at h
      | arr xs => simp [hv] at h
      | obj gs => simp [hv] at h

/-- `requireStringItems` succeeds only on arrays of strings. -/
theorem requireStringItems_ok (key : String) (items : List Json)
    (l : List String) (h : requireStringItems key items = .ok l) :
    items.all isStrJson = true := by
  induction items generalizing l with
  | nil => rfl
  | cons j rest ih =>
      cases j with
      | str s =>
          simp only [requireStringItems] at h
          cases hr : requireStringItems key rest with
          | error v => rw [hr] at h; exact absurd h (by simp)
          | ok tail => simp [isStrJson, ih tail hr]
      | null => simp [requireStringItems] at h
      | bool b => simp [requireStringItems] at h
      | num n => simp [requireStringItems] at h
      | arr xs => simp [requireStringItems] at h
      | obj gs => simp [requireStringItems] at h

/-- A successful `parseEvidenceIds` leaves a well-typed raw field behind. -/
theorem parseEvidenceIds_ok (fs : List (String × Json)) (ids : List String)
    (h : parseEvidenceIds fs = .ok ids) : evidenceIdsWellTyped fs = true := by
  simp only [parseEvidenceIds] at h
  cases hv : getField fs "evidenceIds" with
  | none => simp [evidenceIdsWellTyped, hv]
  | some v =>
      cases v with
      | arr items =>
          rw [hv] at h
          simp [evidenceIdsWellTyped, hv, requireStringItems_ok _ items ids h]
      | null => simp [hv] at h
      | bool b => simp [hv] at h
      | num n => simp [hv] at h
      | str s => simp [hv] at h
      | obj gs => simp [hv] at h

/-- A successful `parseOptionalString` leaves a well-typed raw field. -/
theorem parseOptionalString_ok (fs : List (String × Json)) (key : String)
    (r : Option String) (h : parseOptionalString fs key = .ok r) :
    optionalStringWellTyped fs key = true := by
  simp only [parseOptionalString] at h
  cases hv : getField fs key with
  | none => simp [optionalStringWellTyped, hv]
  | some v => cases v <;> simp_all [optionalStringWellTyped]

/-- A successful `parseOptionalBool` leaves a well-typed raw field. -/
theorem parseOptionalBool_ok (fs : List (String × Json)) (key : String)
    (r : Option Bool) (h : parseOptionalBool fs key = .ok r) :
    optionalBoolWellTyped fs key = true := by
  simp only [parseOptionalBool] at h
  cases hv : getField fs key with
  | none => simp [optionalBoolWellTyped, hv]
  | some v => cases v <;> simp_all [optionalBoolWellTyped]

/-- A node parses only from an object whose `id` and `label` are the
strings the typed node carries — nothing is coerced. -/
theorem parseNodeItem_ok (j : Json) (n : GraphNode)
    (h : parseNodeItem j = .ok n) :
    ∃ nfs, j = .obj nfs ∧
      getField nfs "id" = some (.str n.id) ∧
      getField nfs "label" = some (.str n.label) ∧
      nodeItemWellTyped j = true := by
  cases j with
  | obj fs =>
      simp only [parseNodeItem] at h
      cases h1 : requireString fs "id" with
      | error v => rw [h1] at h; exact absurd h (by simp)
      | ok i =>
          rw [h1] at h
          cases h2 : requireString fs "label" with
          | error v => rw [h2] at h; exact absurd h (by simp)
          | ok l =>
              rw [h2] at h
              simp only [Except.ok.injEq] at h
              subst h
              have g1 := requireString_ok fs "id" i h1
              have g2 := requireString_ok fs "label" l h2
              exact ⟨fs, rfl, g1, g2, by simp [nodeItemWellTyped, g1, g2]⟩
  | null => simp [parseNodeItem] at h
  | bool b => simp [parseNodeItem] at h
  | num n0 => simp [parseNodeItem] at h
  | str s => simp [parseNodeItem] at h
  | arr xs => simp [parseNodeItem] at h

/-- An edge parses only from an object whose `from`, `to` and
`confidence` are the strings the typed edge carries, with a well-typed
`evidenceIds` — nothing is coerced. -/
theorem parseEdgeItem_ok (j : Json) (e : GraphEdge)
    (h : parseEdgeItem j = .ok e) :
    ∃ efs, j = .obj efs ∧
      getField efs "from" = some (.str e.fromId) ∧
      getField efs "to" = some (.str e.toId) ∧
      getField efs "confidence" = some (.str (confidenceString e.confidence)) ∧
      edgeItemWellTyped j = true := by
  cases j with
  | obj fs =>
      simp only [parseEdgeItem] at h
      cases h1 : requireString fs "from" with
      | error v => rw [h1] at h; exact absurd h (by simp)
      | ok f =>
          rw [h1] at h
          cases h2 : requireString fs "to" with
          | error v => rw [h2] at h; exact absurd h (by simp)
          | ok t =>
              rw [h2] at h
              cases h3 : requireConfidence fs with
              | error v => rw [h3] at h; exact absurd h (by simp)
              | ok c =>
                  rw [h3] at h
                  cases h4 : parseEvidenceIds fs with
                  | error v => rw [h4] at h; exact absurd h (by simp)
                  | ok ids =>
                      rw [h4] at h
                      simp only [Except.ok.injEq] at h
                      subst h
                      have g1 := requireString_ok fs "from" f h1
                      have g2 := requireString_ok fs "to" t h2
                      have g3 := requireConfidence_ok fs c h3
                      have g4 := parseEvidenceIds_ok fs ids h4
                      refine ⟨fs, rfl, g1, g2, g3, ?_⟩
                      simp [edgeItemWellTyped, g1, g2, g4,
                        confidenceWellTyped, g3]
                      cases c <;> simp [confidenceString]
  | null => simp [parseEdgeItem] at h
  | bool b => simp [parseEdgeItem] at h
  | num n0 => simp [parseEdgeItem] at h
  | str s => simp [parseEdgeItem] at h
  | arr xs => simp [parseEdgeItem] at h

/-- A step parses only from an object whose `title`, `command` and
`confidence` are the values the typed step carries, with well-typed
optional fields — nothing is coerced. -/
theorem parseStepItem_ok (j : Json) (st : RunbookStep)
    (h : parseStepItem j = .ok st) :
    ∃ sfs, j = .obj sfs ∧
      getField sfs "title" = some (.str st.title) ∧
      getField sfs "command" = some (.str st.command) ∧
      getField sfs "confidence" = some (.str (confidenceString st.confidence)) ∧
      stepItemWellTyped j = true := by
  cases j with
  | obj fs =>
      simp only [parseStepItem] at h
      cases h1 : requireString fs "title" with
      | error v => rw [h1] at h; exact absurd h (by simp)
      | ok t =>
          rw [h1] at h
          cases h2 : requireString fs "command" with
          | error v => rw [h2] at h; exact absurd h (by simp)
          | ok c =>
              rw [h2] at h
              cases h3 : requireConfidence fs with
              | error v => rw [h3] at h; exact absurd h (by simp)
              | ok conf =>
                  rw [h3] at h
                  cases h4 : parseOptionalString fs "rationale" with
                  | error v => rw [h4] at h; exact absurd h (by simp)
                  | ok r =>
                      rw [h4] at h
                      cases h5 : parseOptionalBool fs "requiresConfirmation" with
                      | error v => rw [h5] at h; exact absurd h (by simp)
                      | ok rc =>
                          rw [h5] at h
                          simp only [Except.ok.injEq] at h
                          subst h
                          have g1 := requireString_ok fs "title" t h1
                          have g2 := requireString_ok fs "command" c h2
                          have g3 := requireConfidence_ok fs conf h3
                          have g4 := parseOptionalString_ok fs "rationale" r h4
                          have g5 := parseOptionalBool_ok fs
                            "requiresConfirmation" rc h5
                          refine ⟨fs, rfl, g1, g2, g3, ?_⟩
                          simp [stepItemWellTyped, g1, g2, g4, g5,
                            confidenceWellTyped, g3]
                          cases conf <;> simp [confidenceString]
  | null => simp [parseStepItem] at h
  | bool b => simp [parseStepItem] at h
  | num n0 => simp [parseStepItem] at h
  | str s => simp [parseStepItem] at h
  | arr xs => simp [parseStepItem] at h

/-- When `parseItems` succeeds, every item parsed successfully. -/
theorem parseItems_ok_mem {α : Type} (p : Json → Except Violation α)
    (items : List Json) (found : List α)
    (h : parseItems p items = .ok found) :
    ∀ j ∈ items, ∃ a, p j = .ok a := by
  induction items generalizing found with
  | nil => intro j hj; cases hj
  | cons j0 rest ih =>
      simp only [parseItems] at h
      cases hpj : p j0 with
      | error v => rw [hpj] at h; exact absurd h (by simp)
      | ok a =>
          rw [hpj] at h
          cases hrest : parseItems p rest with
          | error v => rw [hrest] at h; exact absurd h (by simp)
          | ok tail =>
              intro j hj
              cases hj with
              | head => exact ⟨a, hpj⟩
              | tail _ hmem => exact ih tail hrest j hmem

/-- Everything a successful graph validation guarantees about the raw
value: required arrays present, caps respected, every item already of
the declared shape, counts preserved. -/
theorem validateGraphRaw_ok_shape (raw : Json) (g : CausalGraph)
    (h : validateGraphRaw raw = .ok g) :
    ∃ fs ni ei, raw = .obj fs ∧
      getField fs "nodes" = some (.arr ni) ∧
      getField fs "edges" = some (.arr ei) ∧
      ni.length ≤ 8 ∧ ei.length ≤ 10 ∧
      g.nodes.length = ni.length ∧ g.edges.length = ei.length ∧
      ni.all nodeItemWellTyped = true ∧ ei.all edgeItemWellTyped = true := by
  cases raw with
  | obj fs =>
      simp only [validateGraphRaw] at h
      cases hn : getField fs "nodes" with
      | none => rw [hn] at h; exact absurd h (by simp)
      | some nv =>
          rw [hn] at h
          cases nv with
          | arr nodeItems =>
              cases he : getField fs "edges" with
              | none => rw [he] at h; exact absurd h (by simp)
              | some ev =>
                  rw [he] at h
                  cases ev with
                  | arr edgeItems =>
                      by_cases hcn : nodeItems.length > 8
                      · simp [hcn] at h
                      · by_cases hce : edgeItems.length > 10
                        · simp [hcn, hce] at h
                        · simp only [hcn, hce, if_false] at h
                          cases hpn : parseItems parseNodeItem nodeItems with
                          | error v => rw [hpn] at h; simp at h
                          | ok ns =>
                              cases hpe : parseItems parseEdgeItem edgeItems with
                              | error v => rw [hpn, hpe] at h; simp at h
                              | ok es =>
                                  rw [hpn, hpe] at h
                                  simp only [Except.ok.injEq] at h
                                  subst h
                                  refine ⟨fs, nodeItems, edgeItems, rfl, hn, he,
                                    Nat.le_of_not_lt hcn, Nat.le_of_not_lt hce,
                                    parseItems_ok_length parseNodeItem
                                      nodeItems ns hpn,
                                    parseItems_ok_length parseEdgeItem
                                      edgeItems es hpe, ?_, ?_⟩
                                  · refine List.all_eq_true.mpr fun j hj => ?_
                                    obtain ⟨a, ha⟩ := parseItems_ok_mem
                                      parseNodeItem nodeItems ns hpn j hj
                                    obtain ⟨-, -, -, -, hw⟩ :=
                                      parseNodeItem_ok j a ha
                                    exact hw
                                  · refine List.all_eq_true.mpr fun j hj => ?_
                                    obtain ⟨a, ha⟩ := parseItems_ok_mem
                                      parseEdgeItem edgeItems es hpe j hj
                                    obtain ⟨-, -, -, -, -, hw⟩ :=
                                      parseEdgeItem_ok j a ha
                                    exact hw
                  | null => simp at h
                  | bool b => simp at h
                  | num n => simp at h
                  | str s => simp at h
                  | obj gs => simp at h
          | null => simp at h
          | bool b => simp at h
          | num n => simp at h
          | str s => simp at h
          | obj gs => simp at h
  | null => simp [validateGraphRaw] at h
  | bool b => simp [validateGraphRaw] at h
  | num n => simp [validateGraphRaw] at h
  | str s => simp [validateGraphRaw] at h
  | arr xs => simp [validateGraphRaw] at h

/-- Everything a successful runbook validation guarantees about the raw
value. -/
theorem validateRunbookRaw_ok_shape (raw : Json) (p : RunbookPlan)
    (h : validateRunbookRaw raw = .ok p) :
    ∃ fs si, raw = .obj fs ∧
      getField fs "summary" = some (.str p.summary) ∧
      getField fs "steps" = some (.arr si) ∧
      si.length ≤ 6 ∧ p.steps.length = si.length ∧
      si.all stepItemWellTyped = true := by
  cases raw with
  | obj fs =>
      simp only [validateRunbookRaw] at h
      cases hs : getField fs "summary" with
      | none => rw [hs] at h; exact absurd h (by simp)
      | some sv =>
          rw [hs] at h
          cases sv with
          | str summary =>
              cases hst : getField fs "steps" with
              | none => rw [hst] at h; exact absurd h (by simp)
              | some stv =>
                  rw [hst] at h
                  cases stv with
                  | arr stepItems =>
                      by_cases hcs : stepItems.length > 6
                      · simp [hcs] at h
                      · simp only [hcs, if_false] at h
                        cases hps : parseItems parseStepItem stepItems with
                        | error v => rw [hps] at h; simp at h
                        | ok steps =>
                            rw [hps] at h
                            simp only [Except.ok.injEq] at h
                            subst h
                            refine ⟨fs, stepItems, rfl, hs, hst,
                              Nat.le_of_not_lt hcs,
                              parseItems_ok_length parseStepItem
                                stepItems steps hps, ?_⟩
                            refine List.all_eq_true.mpr fun j hj => ?_
                            obtain ⟨a, ha⟩ := parseItems_ok_mem
                              parseStepItem stepItems steps hps j hj
                            obtain ⟨-, -, -, -, -, hw⟩ := parseStepItem_ok j a ha
                            exact hw
                  | null => simp at h
                  | bool b => simp at h
                  | num n => simp at h
                  | str s2 => simp at h
                  | obj gs => simp at h
          | null => simp at h
          | bool b => simp at h
          | num n => simp at h
          | arr xs => simp at h
          | obj gs => simp at h
  | null => simp [validateRunbookRaw] at h
  | bool b => simp [validateRunbookRaw] at h
  | num n => simp [validateRunbookRaw] at h
  | str s => simp [validateRunbookRaw] at h
  | arr xs => simp [validateRunbookRaw] at h

/-- A successful graph-kind validation comes from the graph validator. -/
theorem validate_graphKind_ok (raw : Json) (tv : TypedValue)
    (h : validate raw SchemaKind.graphKind = .ok tv) :
    ∃ g, tv = .graphValue g ∧ validateGraphRaw raw = .ok g := by
  simp only [validate] at h
  cases hv : validateGraphRaw raw with
  | error vs => rw [hv] at h; simp [Except.map] at h
  | ok g =>
      rw [hv] at h
      simp only [Except.map, Except.ok.injEq] at h
      exact ⟨g, h.symm, rfl⟩

/-- A successful runbook-kind validation comes from the runbook
validator. -/
theorem validate_runbookKind_ok (raw : Json) (tv : TypedValue)
    (h : validate raw SchemaKind.runbookKind = .ok tv) :
    ∃ p, tv = .runbookValue p ∧ validateRunbookRaw raw = .ok p := by
  simp only [validate] at h
  cases hv : validateRunbookRaw raw with
  | error vs => rw [hv] at h; simp [Except.map] at h
  | ok p =>
      rw [hv] at h
      simp only [Except.map, Except.ok.injEq] at h
      exact ⟨p, h.symm, rfl⟩

/-- The validator is a total `Result`: whatever does not produce a typed
value produces a violation list. -/
theorem validate_not_ok_error (raw : Json) (kind : SchemaKind)
    (h : ∀ tv, validate raw kind ≠ .ok tv) :
    ∃ vs, validate raw kind = .error vs := by
  cases hv : validate raw kind with
  | ok tv => exact absurd hv (h tv)
  | error vs => exact ⟨vs, rfl⟩

/-- C3: the schema-kind-parametric validator returns a violation list —
never a typed value — for every raw value with a missing required field,
a wrongly-typed field, an enum value outside the declared set, or an
exceeded array cap (nodes > 8, edges > 10, steps > 6); and it never
coerces: a typed value is produced only when every raw field already has
exactly the declared primitive type, the typed fields being the raw
strings themselves. -/
theorem c3_validator_rejects_never_coerces (raw : Json) :
    (∀ g, validate raw SchemaKind.graphKind = .ok (.graphValue g) →
      ∃ fs ni ei, raw = .obj fs ∧
        getField fs "nodes" = some (.arr ni) ∧
        getField fs "edges" = some (.arr ei) ∧
        ni.length ≤ 8 ∧ ei.length ≤ 10 ∧
        g.nodes.length = ni.length ∧ g.edges.length = ei.length ∧
        ni.all nodeItemWellTyped = true ∧ ei.all edgeItemWellTyped = true)
    ∧ (∀ p, validate raw SchemaKind.runbookKind = .ok (.runbookValue p) →
      ∃ fs si, raw = .obj fs ∧
        getField fs "summary" = some (.str p.summary) ∧
        getField fs "steps" = some (.arr si) ∧
        si.length ≤ 6 ∧ p.steps.length = si.length ∧
        si.all stepItemWellTyped = true)
    ∧ (∀ fs, raw = .obj fs →
        (getField fs "nodes" = none ∨
         getField fs "edges" = none ∨
         (∃ v, getField fs "nodes" = some v ∧ isArrJson v = false) ∨
         (∃ v, getField fs "edges" = some v ∧ isArrJson v = false) ∨
         (∃ ni, getField fs "nodes" = some (.arr ni) ∧ ni.length > 8) ∨
         (∃ ei, getField fs "edges" = some (.arr ei) ∧ ei.length > 10) ∨
         (∃ ni j, getField fs "nodes" = some (.arr ni) ∧ j ∈ ni ∧
            nodeItemWellTyped j = false) ∨
         (∃ ei j, getField fs "edges" = some (.arr ei) ∧ j ∈ ei ∧
            edgeItemWellTyped j = false)) →
        ∃ vs, validate raw SchemaKind.graphKind = .error vs)
    ∧ (∀ fs, raw = .obj fs →
        (getField fs "summary" = none ∨
         getField fs "steps" = none ∨
         (∃ v, getField fs "summary" = some v ∧ isStrJson v = false) ∨
         (∃ v, getField fs "steps" = some v ∧ isArrJson v = false) ∨
         (∃ si, getField fs "steps" = some (.arr si) ∧ si.length > 6) ∨
         (∃ si j, getField fs "steps" = some (.arr si) ∧ j ∈ si ∧
            stepItemWellTyped j = false)) →
        ∃ vs, validate raw SchemaKind.runbookKind = .error vs) := by
  refine ⟨?_, ?_, ?_, ?_⟩
  · intro g h
    obtain ⟨g0, hg0, hok⟩ := validate_graphKind_ok raw _ h
    simp only [TypedValue.graphValue.injEq] at hg0
    subst hg0
    exact validateGraphRaw_ok_shape raw _ hok
  · intro p h
    obtain ⟨p0, hp0, hok⟩ := validate_runbookKind_ok raw _ h
    simp only [TypedValue.runbookValue.injEq] at hp0
    subst hp0
    exact validateRunbookRaw_ok_shape raw _ hok
  · rintro fs rfl hdef
    refine validate_not_ok_error _ _ fun tv htv => ?_
    obtain ⟨g, -, hok⟩ := validate_graphKind_ok _ tv htv
    obtain ⟨fs2, ni, ei, hobj, hn, he, hln, hle, -, -, hwn, hwe⟩ :=
      validateGraphRaw_ok_shape _ g hok
    simp only [Json.obj.injEq] at hobj
    subst hobj
    rcases hdef with hd | hd | ⟨v, hv, hva⟩ | ⟨v, hv, hva⟩ |
        ⟨ni2, hv, hlen⟩ | ⟨ei2, hv, hlen⟩ |
        ⟨ni2, j, hv, hj, hbad⟩ | ⟨ei2, j, hv, hj, hbad⟩
    · rw [hd] at hn; cases hn
    · rw [hd] at he; cases he
    · rw [hv] at hn
      simp only [Option.some.injEq] at hn
      subst hn
      simp [isArrJson] at hva
    · rw [hv] at he
      simp only [Option.some.injEq] at he
      subst he
      simp [isArrJson] at hva
    · rw [hv] at hn
      simp only [Option.some.injEq, Json.arr.injEq] at hn
      subst hn
      omega
    · rw [hv] at he
      simp only [Option.some.injEq, Json.arr.injEq] at he
      subst he
      omega
    · rw [hv] at hn
      simp only [Option.some.injEq, Json.arr.injEq] at hn
      subst hn
      have hcontra := List.all_eq_true.mp hwn j hj
      rw [hbad] at hcontra
      cases hcontra
    · rw [hv] at he
      simp only [Option.some.injEq, Json.arr.injEq] at he
      subst he
      have hcontra := List.all_eq_true.mp hwe j hj
      rw [hbad] at hcontra
      cases hcontra
  · rintro fs rfl hdef
    refine validate_not_ok_error _ _ fun tv htv => ?_
    obtain ⟨p, -, hok⟩ := validate_runbookKind_ok _ tv htv
    obtain ⟨fs2, si, hobj, hs, hst, hlen6, -, hws⟩ :=
      validateRunbookRaw_ok_shape _ p hok
    simp only [Json.obj.injEq] at hobj
    subst hobj
    rcases hdef with hd | hd | ⟨v, hv, hva⟩ | ⟨v, hv, hva⟩ |
        ⟨si2, hv, hlen⟩ | ⟨si2, j, hv, hj, hbad⟩
    · rw [hd] at hs; cases hs
    · rw [hd] at hst; cases hst
    · rw [hv] at hs
      simp only [Option.some.injEq] at hs
      subst hs
      simp [isStrJson] at hva
    · rw [hv] at hst
      simp only [Option.some.injEq] at hst
      subst hst
      simp [isArrJson] at hva
    · rw [hv] at hst
      simp only [Option.some.injEq, Json.arr.injEq] at hst
      subst hst
      omega
    · rw [hv] at hst
      simp only [Option.some.injEq, Json.arr.injEq] at hst
      subst hst
      have hcontra := List.all_eq_true.mp hws j hj
      rw [hbad] at hcontra
      cases hcontra

/-- A raw graph with nine nodes — one over the cap. -/
def rawNineNodes : Json :=
  .obj [("nodes", .arr (List.replicate 9
          (.obj [("id", .str "n"), ("label", .str "node")]))),
        ("edges", .arr [])]

theorem c3_witness :
    ∃ vs, validate rawNineNodes SchemaKind.graphKind = .error vs :=
  (c3_validator_rejects_never_coerces rawNineNodes).2.2.1 _ rfl
    (Or.inr (Or.inr (Or.inr (Or.inr (Or.inl
      ⟨List.replicate 9 (.obj [("id", .str "n"), ("label", .str "node")]),
        rfl, by decide⟩)))))
